import Mathlib

set_option linter.unusedVariables false

/-!
Verification development for the email validation engine in
`src/email_validator.py`.  Strings are embedded as lists of characters
(`Str`), the Python functions `normalize_email`, ` is_valid_syntax`,
`smtp_try_rcpt` and `check_email` are translated into executable Lean
functions, and the network (DNS lookups, SMTP port attempts, the random
probe local part) is an explicit oracle argument, so that the
deterministic control flow of the engine is exactly the source's.
-/

/-- Python strings are embedded as lists of characters. -/
abbrev Str := List Char

/-- Character list of a string literal (used for the source's string constants). -/
def str (s : String) : Str := s.data

/-- `c` is an ASCII character (code point below 128). -/
def isAsciiChar (c : Char) : Bool := c.toNat < 128

/-- The whitespace characters stripped by Python `str.strip()` on ASCII text:
space, tab, newline, carriage return, vertical tab, form feed. -/
def isPySpace (c : Char) : Bool :=
  c == ' ' || c == '\t' || c == '\n' || c == '\r' || c == Char.ofNat 11 || c == Char.ofNat 12

/-- Drop trailing characters satisfying `p` (the mirror image of `List.dropWhile`). -/
def dropEnd (p : Char → Bool) (s : Str) : Str :=
  (s.reverse.dropWhile p).reverse

/-- Trim characters satisfying `p` from both ends (front first, as in CPython). -/
def trimBy (p : Char → Bool) (s : Str) : Str :=
  dropEnd p (s.dropWhile p)

/-- Python `str.strip()` (no argument: strips whitespace from both ends). -/
def pyStrip (s : Str) : Str := trimBy isPySpace s

/-- Python `str.lower()` on one character, for ASCII: `A`..`Z` map to `a`..`z`,
everything else is unchanged (`'A'.toNat = 65`, `'Z'.toNat = 90`). -/
def lowerChar (c : Char) : Char :=
  if 65 ≤ c.toNat ∧ c.toNat ≤ 90 then Char.ofNat (c.toNat + 32) else c

/-- Python `str.lower()` on an ASCII string. -/
def pyLower (s : Str) : Str := s.map lowerChar

/-- Python `s.rsplit(ch, 1)`: split at the last occurrence of `ch`, or `none`
when `ch` does not occur (models the `"@" not in email` guard together with
`email.rsplit("@", 1)`). -/
def rsplitAt (ch : Char) : Str → Option (Str × Str)
  | [] => none
  | c :: rest =>
    match rsplitAt ch rest with
    | some (l, r) => some (c :: l, r)
    | none => if c = ch then some ([], rest) else none

/-- Python `s.split(".")`: `""` maps to `[""]`, separators are single dots. -/
def splitDots : Str → List Str
  | [] => [[]]
  | c :: rest =>
    if c = '.' then [] :: splitDots rest
    else
      match splitDots rest with
      | l :: ls => (c :: l) :: ls
      | [] => [[c]]

/-- Python `".." in local`: two consecutive dots occur somewhere. -/
def hasDoubleDot : Str → Bool
  | [] => false
  | [_] => false
  | c :: d :: rest => (c = '.' && d = '.') || hasDoubleDot (d :: rest)

/-- ASCII letter or digit (the `A-Za-z0-9` ranges of the source's regexes). -/
def isAlnum (c : Char) : Bool :=
  (65 ≤ c.toNat && c.toNat ≤ 90) || (97 ≤ c.toNat && c.toNat ≤ 122) ||
    (48 ≤ c.toNat && c.toNat ≤ 57)

/-- The special characters of the local-part character class
`[A-Za-z0-9!#$%&'*+/=?^_`{|}~.-]` (apostrophe is `Char.ofNat 39`, backquote 96,
the two braces 123 and 125). -/
def localSpecials : List Char :=
  ['!', '#', '$', '%', '&', '*', '+', '/', '=', '?', '^', '_', '~', '.', '-', '|',
   Char.ofNat 39, Char.ofNat 96, Char.ofNat 123, Char.ofNat 125]

/-- One character of the local part matches the source's character class. -/
def localCharOk (c : Char) : Bool := isAlnum c || localSpecials.contains c

/-- One character of a domain label matches `[A-Za-z0-9-]`. -/
def labelCharOk (c : Char) : Bool := isAlnum c || c = '-'

/-- `re.fullmatch(r"[A-Za-z0-9](?:[A-Za-z0-9-]{0,61}[A-Za-z0-9])?", label)`:
either a single alphanumeric, or an alphanumeric, at most 61 characters from
`[A-Za-z0-9-]`, and a final alphanumeric. -/
def labelMatches : Str → Bool
  | [] => false
  | c :: rest =>
    match rest.getLast? with
    | none => isAlnum c
    | some d => isAlnum c && isAlnum d && rest.dropLast.all labelCharOk && rest.length ≤ 62

/-- Models CPython `str.encode("idna").decode("ascii")` for ASCII input
(the fast path of `encodings.idna.Codec.encode`): the empty string encodes to
itself; otherwise every label but the last must have length 1..63 and the last
label length at most 63, the string being returned unchanged; a violation
raises, modelled as `none`.  The punycode branch for non-ASCII input is not
modelled (`none` here); theorems that must hold for arbitrary encoders
quantify over an abstract `Idna` function instead of using this one. -/
def idnaAscii (s : Str) : Option Str :=
  if s.all isAsciiChar then
    if s = [] then some []
    else
      let labels := splitDots s
      if labels.dropLast.all (fun l => 1 ≤ l.length && l.length ≤ 63) &&
          (labels.getLastD []).length ≤ 63
      then some s else none
  else none

/-- An IDNA encoder: `none` models `UnicodeError` from `str.encode("idna")`. -/
abbrev Idna := Str → Option Str

/-- `normalize_email` (src/email_validator.py lines 64-80): split at the last
`@`, strip both sides, lowercase the domain, IDNA-encode it falling back to
the raw lowercased domain when encoding raises, and reassemble. -/
def normalize_email (idna : Idna) (email : Str) : Option (Str × Str × Str) :=
  match rsplitAt '@' email with
  | none => none
  | some (local0, domain0) =>
    let loc := pyStrip local0
    let domain := pyLower (pyStrip domain0)
    let ascii_domain := (idna domain).getD domain
    some (loc ++ str "@" ++ ascii_domain, loc, ascii_domain)

/-- The per-label loop of ` is_valid_syntax`: the first label failing the
length bound reports `label_length`, the first failing the regex reports
`label_chars`. -/
def checkLabels : List Str → Option Str
  | [] => none
  | l :: rest =>
    if ¬(1 ≤ l.length ∧ l.length ≤ 63) then some (str "label_length")
    else if ¬(labelMatches l = true) then some (str "label_chars")
    else checkLabels rest

/-- ` is_valid_syntax` (src/email_validator.py lines 83-116): split at the last
`@`; local-part length, dot and character-class checks; then IDNA-encode the
domain (`domain_idna` on failure), total-length, label-count, per-label and
TLD-length checks, in the source's order. -/
def is_valid_syntax (idna : Idna) (email : Str) : Bool × Option Str :=
  match rsplitAt '@' email with
  | none => (false, some (str "missing_at"))
  | some (loc, domain) =>
    if ¬(1 ≤ loc.length ∧ loc.length ≤ 64) then (false, some (str "local_length"))
    else if loc.head? = some '.' ∨ loc.getLast? = some '.' ∨ hasDoubleDot loc = true then
      (false, some (str "local_dots"))
    else if ¬(loc ≠ [] ∧ loc.all localCharOk = true) then (false, some (str "local_chars"))
    else
      match idna domain with
      | none => (false, some (str "domain_idna"))
      | some ascii_domain =>
        if 253 < ascii_domain.length then (false, some (str "domain_length"))
        else
          let labels := splitDots ascii_domain
          if labels.length < 2 then (false, some (str "domain_tld"))
          else
            match checkLabels labels with
            | some why => (false, some why)
            | none =>
              if (labels.getLastD []).length < 2 then (false, some (str "tld_length"))
              else (true, none)

/-- What the network lets one SMTP port attempt do inside `smtp_try_rcpt`
(src/email_validator.py lines 196-235): either some exception is raised
somewhere in the `try` block (connect error, timeout, or any other
exception — all three `except` arms just continue to the next port), or the
session completes through `MAIL FROM`/`RCPT TO` and the final RCPT reply
code and decoded text are returned. -/
inductive PortAttempt where
  | fails
  | completes (code : Int) (text : Str)
deriving DecidableEq

/-- The SMTP side of the network, per `check_email` call: given MX host, port
and RCPT address, what that port attempt does.  `from_addr`, `helo_host`,
`timeout` and `verbose` are fixed for the whole call and therefore not
arguments of the oracle. -/
abbrev Net := Str → Int → Str → PortAttempt

/-- The `(accepted, code, message, connected)` tuple returned by
`smtp_try_rcpt`. -/
structure ProbeOutcome where
  accepted : Bool
  reply_code : Option Int
  reply_text : Option Str
  connected : Bool
deriving DecidableEq

/-- `smtp_try_rcpt` (src/email_validator.py lines 182-236): iterate the ports
in order; a completed session returns
`(code in (250, 251), code, text, True)`; any exception continues with the
next port; when every port fails, return `(False, None, None, False)`. -/
def smtp_try_rcpt (net : Net) (mx_host : Str) (ports : List Int) (rcpt_addr : Str) :
    ProbeOutcome :=
  match ports with
  | [] => ⟨false, none, none, false⟩
  | port :: rest =>
    match net mx_host port rcpt_addr with
    | .completes code text => ⟨code == 250 || code == 251, some code, some text, true⟩
    | .fails => smtp_try_rcpt net mx_host rest rcpt_addr

/-- The mutable state of the RCPT loop in `check_email`
(src/email_validator.py lines 318-321): `deliverable`, `smtp_connectable`,
`rcpt_code`, `rcpt_msg`. -/
structure RcptState where
  deliverable : Option Bool
  smtp_connectable : Bool
  rcpt_code : Option Int
  rcpt_msg : Option Str
deriving DecidableEq

/-- The initial loop state: `deliverable = None`, `smtp_connectable = False`,
`rcpt_code = None`, `rcpt_msg = None`. -/
def initRcptState : RcptState := ⟨none, false, none, none⟩

/-- `code in (550, 551, 552, 553, 554)` on an optional reply code
(`None` is in no tuple). -/
def isHard (code : Option Int) : Bool :=
  match code with
  | some c => [(550 : Int), 551, 552, 553, 554].contains c
  | none => false

/-- `code in (450, 451, 452, 421)` on an optional reply code. -/
def isSoft (code : Option Int) : Bool :=
  match code with
  | some c => [(450 : Int), 451, 452, 421].contains c
  | none => false

/-- Lines 327-329 of the loop body: `smtp_connectable = smtp_connectable or
connected`, and `if connected and code is not None: rcpt_code, rcpt_msg =
code, msg`. -/
def rcptUpdate (s : RcptState) (o : ProbeOutcome) : RcptState :=
  let s1 : RcptState := { s with smtp_connectable := s.smtp_connectable || o.connected }
  if o.connected = true ∧ o.reply_code ≠ none then
    { s1 with rcpt_code := o.reply_code, rcpt_msg := o.reply_text }
  else s1

/-- The real-recipient loop `for host in mx_hosts` (src/email_validator.py
lines 323-339): probe each host; on `accepted`, set `deliverable = True` and
break; on a hard rejection code set `deliverable = False` and keep iterating;
on temporary codes (and any other non-accepted outcome) leave `deliverable`
unchanged and keep iterating. -/
def rcptLoop (net : Net) (ports : List Int) (rcpt_addr : Str) :
    RcptState → List Str → RcptState
  | s, [] => s
  | s, host :: rest =>
    let o := smtp_try_rcpt net host ports rcpt_addr
    let s1 := rcptUpdate s o
    if o.accepted then { s1 with deliverable := some true }
    else if isHard o.reply_code then
      rcptLoop net ports rcpt_addr { s1 with deliverable := some false } rest
    else rcptLoop net ports rcpt_addr s1 rest

/-- The hosts actually probed by the real-recipient loop: every host up to and
including the first one whose probe returns `accepted = true`. -/
def triedHosts (net : Net) (ports : List Int) (rcpt_addr : Str) : List Str → List Str
  | [] => []
  | host :: rest =>
    if (smtp_try_rcpt net host ports rcpt_addr).accepted then [host]
    else host :: triedHosts net ports rcpt_addr rest

/-- The catch-all loop (src/email_validator.py lines 346-355): probe each host
with the random address; `accepted` breaks with `True`; a hard rejection
breaks with `False`; otherwise `is_catch_all` stays `None` and iteration
continues. -/
def catchAllLoop (net : Net) (ports : List Int) (probe_addr : Str) : List Str → Option Bool
  | [] => none
  | host :: rest =>
    let o := smtp_try_rcpt net host ports probe_addr
    if o.accepted then some true
    else if isHard o.reply_code then some false
    else catchAllLoop net ports probe_addr rest

/-- The built-in `DISPOSABLE_DOMAINS` set (src/email_validator.py
lines 41-51). -/
def DISPOSABLE_DOMAINS : List Str :=
  [str "mailinator.com", str "10minutemail.com", str "guerrillamail.com",
   str "yopmail.com", str "tempmail.com", str "temp-mail.org",
   str "throwawaymail.com", str "moakt.com", str "trashmail.com"]

/-- Decimal rendering of an integer, as Python `f"{code}"` produces. -/
def intToStr (n : Int) : Str :=
  if n < 0 then '-' :: Nat.toDigits 10 (-n).toNat else Nat.toDigits 10 n.toNat

/-- `f"rcpt_{rcpt_code}" if rcpt_code else dflt`: Python truthiness makes both
`None` and `0` fall back to the default reason. -/
def rcptReason (code : Option Int) (dflt : Str) : Str :=
  match code with
  | some c => if c = 0 then dflt else str "rcpt_" ++ intToStr c
  | none => dflt

/-- The final status classification (src/email_validator.py lines 365-379).
`deliverable is True and is_catch_all` is Python truthiness on the optional
boolean, i.e. `is_catch_all = some true`. -/
def classify (st : RcptState) (is_catch_all : Option Bool) : Str × Option Str :=
  if st.smtp_connectable = false ∧ st.deliverable = none then
    (str "unknown", some (str "smtp_unreachable"))
  else if st.deliverable = some true ∧ is_catch_all = some true then
    (str "unknown", some (str "accepts_all"))
  else if st.deliverable = some true then (str "deliverable", none)
  else if st.deliverable = some false then
    (str "undeliverable", some (rcptReason st.rcpt_code (str "hard_fail")))
  else (str "unknown", some (rcptReason st.rcpt_code (str "temp_fail")))

/-- The `EmailValidationResult` dataclass (src/email_validator.py
lines 23-37).  The diagnostic `logs` field (timestamped trace lines) carries
no decision information and is omitted from the embedding. -/
structure EmailValidationResult where
  email : Str
  normalized_email : Option Str
  domain : Option Str
  is_valid_syntax : Bool
  domain_has_mx : Bool
  smtp_connectable : Bool
  is_deliverable : Option Bool
  is_catch_all : Option Bool
  is_disposable : Option Bool
  status : Str
  reason : Option Str
  mx_hosts : List Str
deriving DecidableEq

/-- The external world one `check_email` call observes: the `(preference,
host)` list returned by `nslookup_mx`, the address list returned by
`resolve_a`, the SMTP port attempts, and the local part generated by
`random_probe_local()`. -/
structure NetworkWorld where
  mx : Str → List (Int × Str)
  aRecords : Str → List Str
  attempt : Net
  probeLocal : Str

/-- The early return of `check_email` when `normalize_email` finds no `@`
(src/email_validator.py lines 256-271). -/
def missingAtResult (email : Str) : EmailValidationResult :=
  { email := email, normalized_email := none, domain := none,
    is_valid_syntax := false, domain_has_mx := false, smtp_connectable := false,
    is_deliverable := some false, is_catch_all := none, is_disposable := none,
    status := str "invalid_syntax", reason := some (str "missing_at"), mx_hosts := [] }

/-- The early return of `check_email` when ` is_valid_syntax` rejects
(src/email_validator.py lines 274-289). -/
def invalidSyntaxResult (email normalized domain : Str) (why : Option Str) :
    EmailValidationResult :=
  { email := email, normalized_email := some normalized, domain := some domain,
    is_valid_syntax := false, domain_has_mx := false, smtp_connectable := false,
    is_deliverable := some false, is_catch_all := none, is_disposable := none,
    status := str "invalid_syntax", reason := why, mx_hosts := [] }

/-- The early return of `check_email` when there is neither MX nor A/AAAA
(src/email_validator.py lines 298-313). -/
def invalidDomainResult (email normalized domain : Str) : EmailValidationResult :=
  { email := email, normalized_email := some normalized, domain := some domain,
    is_valid_syntax := true, domain_has_mx := false, smtp_connectable := false,
    is_deliverable := some false, is_catch_all := none, is_disposable := none,
    status := str "invalid_domain", reason := some (str "no_mx_no_a"), mx_hosts := [] }

/-- The tail of `check_email` once the host list is fixed
(src/email_validator.py lines 317-395): the RCPT loop, the catch-all pass
(run only when `deliverable` is truthy, defaulting a still-`None` verdict to
`False`), the disposable lookup and the final classification. -/
def checkEmailResolved (w : NetworkWorld) (ports : List Int)
    (email normalized domain : Str) (domain_has_mx : Bool) (mx_hosts : List Str) :
    EmailValidationResult :=
  let st := rcptLoop w.attempt ports normalized initRcptState mx_hosts
  let is_catch_all : Option Bool :=
    if st.deliverable = some true then
      some ((catchAllLoop w.attempt ports (w.probeLocal ++ str "@" ++ domain) mx_hosts).getD
        false)
    else none
  let is_disposable := DISPOSABLE_DOMAINS.contains domain
  let sr := classify st is_catch_all
  { email := email, normalized_email := some normalized, domain := some domain,
    is_valid_syntax := true, domain_has_mx := domain_has_mx,
    smtp_connectable := st.smtp_connectable, is_deliverable := st.deliverable,
    is_catch_all := is_catch_all, is_disposable := some is_disposable,
    status := sr.1, reason := sr.2, mx_hosts := mx_hosts }

/-- `ports = ports or [25]` (src/email_validator.py line 253): `None` and the
empty list are falsy, any non-empty list is kept. -/
def effectivePorts (ports0 : Option (List Int)) : List Int :=
  match ports0 with
  | some (p :: ps) => p :: ps
  | _ => [25]

/-- `check_email` (src/email_validator.py lines 243-395): normalize; validate
syntax; resolve MX, truncating to `max_mx`; fall back to the domain itself as
host when MX is empty but an A/AAAA record exists; otherwise return
`invalid_domain`; then run the SMTP stages on the resolved host list. -/
def check_email (idna : Idna) (w : NetworkWorld) (email : Str)
    (max_mx : Nat) (ports0 : Option (List Int)) : EmailValidationResult :=
  let ports := effectivePorts ports0
  match normalize_email idna email with
  | none => missingAtResult email
  | some (normalized, _loc, domain) =>
    let vs := is_valid_syntax idna normalized
    if vs.1 = false then invalidSyntaxResult email normalized domain vs.2
    else
      let mx := w.mx domain
      let domain_has_mx := !mx.isEmpty
      let mx_hosts := (mx.map Prod.snd).take max_mx
      if mx_hosts = [] then
        if w.aRecords domain = [] then invalidDomainResult email normalized domain
        else checkEmailResolved w ports email normalized domain domain_has_mx [domain]
      else checkEmailResolved w ports email normalized domain domain_has_mx mx_hosts

/-- The exit-code mapping of the CLI `check` subcommand
(src/email_validator.py lines 477-482). -/
def exitCodeOfStatus (status : Str) : Nat :=
  if status = str "deliverable" then 0
  else if status = str "invalid_syntax" ∨ status = str "invalid_domain" ∨
      status = str "undeliverable" then 1
  else 2

/-- A world with no DNS records and no reachable SMTP server. -/
def wEmpty : NetworkWorld :=
  { mx := fun _ => [], aRecords := fun _ => [],
    attempt := fun _ _ _ => .fails, probeLocal := str "probe_x" }

/-- A world with two MX hosts for every domain whose SMTP servers accept
exactly the address `u@example.com` with 250 and reject every other RCPT
with 550. -/
def wAcc : NetworkWorld :=
  { mx := fun _ => [(10, str "mx1"), (20, str "mx2")],
    aRecords := fun _ => [],
    attempt := fun _ _ rcpt =>
      if rcpt = str "u@example.com" then .completes 250 (str "ok")
      else .completes 550 (str "no"),
    probeLocal := str "probe_x" }

/-- A world with one MX host whose SMTP server always soft-fails with 451. -/
def wSoft : NetworkWorld :=
  { mx := fun _ => [(10, str "mx1")], aRecords := fun _ => [],
    attempt := fun _ _ _ => .completes 451 (str "try later"),
    probeLocal := str "probe_x" }

/-- A network whose host `acc` accepts every RCPT with 250 and whose other
hosts soft-fail with 451. -/
def cnetC2 : Net := fun host _ _ =>
  if host = str "acc" then .completes 250 (str "ok") else .completes 451 (str "wait")

/-- A probe outcome that decides nothing in the catch-all pass: not accepted
and not a hard rejection (soft failure or unreachable host). -/
def indecisiveProbe (o : ProbeOutcome) : Prop :=
  o.accepted = false ∧ isHard o.reply_code = false

/-! ### Helper lemmas about the string primitives -/

theorem charToNat_inj {c d : Char} (h : c.toNat = d.toNat) : c = d :=
  Char.ext (UInt32.ext h)

theorem rsplitAt_eq_none {ch : Char} : ∀ {s : Str}, ch ∉ s → rsplitAt ch s = none := by
  intro s
  induction s with
  | nil => intro _; rfl
  | cons c rest ih =>
    intro h
    have h1 : ch ∉ rest := fun hm => h (List.mem_cons_of_mem _ hm)
    have h2 : ¬(c = ch) := fun he => h (by simp [he])
    simp [rsplitAt, ih h1, h2]

theorem not_mem_of_rsplitAt_none {ch : Char} :
    ∀ {s : Str}, rsplitAt ch s = none → ch ∉ s := by
  intro s
  induction s with
  | nil => intro _ hm; cases hm
  | cons c rest ih =>
    intro h hm
    rw [rsplitAt] at h
    cases hr : rsplitAt ch rest with
    | some lr => rw [hr] at h; cases h
    | none =>
      rw [hr] at h
      by_cases hc : c = ch
      · rw [if_pos hc] at h; cases h
      · rw [if_neg hc] at h
        rcases List.mem_cons.mp hm with he | hm2
        · exact hc he.symm
        · exact ih hr hm2

theorem rsplitAt_append {ch : Char} {r : Str} (hr : ch ∉ r) :
    ∀ (l : Str), rsplitAt ch (l ++ ch :: r) = some (l, r) := by
  intro l
  induction l with
  | nil => simp [rsplitAt, rsplitAt_eq_none hr]
  | cons x xs ih => simp [rsplitAt, ih]

theorem rsplitAt_sound {ch : Char} :
    ∀ {s l r : Str}, rsplitAt ch s = some (l, r) → s = l ++ ch :: r ∧ ch ∉ r := by
  intro s
  induction s with
  | nil => intro l r h; cases h
  | cons c rest ih =>
    intro l r h
    rw [rsplitAt] at h
    cases hr : rsplitAt ch rest with
    | some lr =>
      rw [hr] at h
      obtain ⟨l', r'⟩ := lr
      cases h
      obtain ⟨he, hm⟩ := ih hr
      exact ⟨by rw [List.cons_append, ← he], hm⟩
    | none =>
      rw [hr] at h
      by_cases hc : c = ch
      · rw [if_pos hc] at h
        cases h
        exact ⟨by rw [hc]; rfl, not_mem_of_rsplitAt_none hr⟩
      · rw [if_neg hc] at h; cases h

theorem splitDots_no_dot : ∀ {l : Str}, '.' ∉ l → splitDots l = [l] := by
  intro l
  induction l with
  | nil => intro _; rfl
  | cons c rest ih =>
    intro h
    have h1 : '.' ∉ rest := fun hm => h (List.mem_cons_of_mem _ hm)
    have h2 : ¬(c = '.') := fun he => h (by simp [he])
    simp [splitDots, h2, ih h1]

theorem splitDots_append {l : Str} (hl : '.' ∉ l) (r : Str) :
    splitDots (l ++ '.' :: r) = l :: splitDots r := by
  induction l with
  | nil => simp [splitDots]
  | cons c cs ih =>
    have h1 : '.' ∉ cs := fun hm => hl (List.mem_cons_of_mem _ hm)
    have h2 : ¬(c = '.') := fun he => hl (by simp [he])
    simp only [List.cons_append, splitDots, h2, if_false, List.append_eq, ih h1]

theorem dropWhile_head_false {p : Char → Bool} :
    ∀ {l : Str} {a : Char} {r : Str}, l.dropWhile p = a :: r → p a = false := by
  intro l
  induction l with
  | nil => intro a r h; cases h
  | cons x xs ih =>
    intro a r h
    rw [List.dropWhile_cons] at h
    by_cases hp : p x = true
    · rw [if_pos hp] at h; exact ih h
    · rw [if_neg hp] at h
      cases h
      simpa using hp

theorem dropWhile_idem (p : Char → Bool) (l : Str) :
    (l.dropWhile p).dropWhile p = l.dropWhile p := by
  cases h : l.dropWhile p with
  | nil => rfl
  | cons a r =>
    rw [List.dropWhile_cons, if_neg]
    simp [dropWhile_head_false h]

theorem exists_dropWhile_prefix (p : Char → Bool) :
    ∀ (l : Str), ∃ w, l = w ++ l.dropWhile p := by
  intro l
  induction l with
  | nil => exact ⟨[], rfl⟩
  | cons a l ih =>
    by_cases hp : p a = true
    · obtain ⟨w, hw⟩ := ih
      exact ⟨a :: w, by rw [List.dropWhile_cons, if_pos hp, List.cons_append, ← hw]⟩
    · exact ⟨[], by rw [List.dropWhile_cons, if_neg hp]; rfl⟩

theorem dropWhile_map_comm {p : Char → Bool} {f : Char → Char}
    (hf : ∀ c, p (f c) = p c) : ∀ (l : Str), (l.map f).dropWhile p = (l.dropWhile p).map f := by
  intro l
  induction l with
  | nil => rfl
  | cons a l ih =>
    simp only [List.map_cons, List.dropWhile_cons, hf a]
    by_cases hp : p a = true
    · simp [hp, ih]
    · simp [hp]

theorem mem_of_mem_dropWhile {p : Char → Bool} {a : Char} :
    ∀ {l : Str}, a ∈ l.dropWhile p → a ∈ l := by
  intro l
  induction l with
  | nil => intro h; exact h
  | cons x xs ih =>
    intro h
    rw [List.dropWhile_cons] at h
    by_cases hp : p x = true
    · rw [if_pos hp] at h; exact List.mem_cons_of_mem _ (ih h)
    · rw [if_neg hp] at h; exact h

theorem trimBy_front (p : Char → Bool) (s : Str) :
    (trimBy p s).dropWhile p = trimBy p s := by
  obtain ⟨w, hw⟩ := exists_dropWhile_prefix p (s.dropWhile p).reverse
  cases hu : trimBy p s with
  | nil => rfl
  | cons a r =>
    simp only [trimBy, dropEnd] at hu
    have ht : s.dropWhile p = a :: (r ++ w.reverse) := by
      have h2 := congrArg List.reverse hw
      rw [List.reverse_reverse, List.reverse_append, hu] at h2
      simpa using h2
    rw [List.dropWhile_cons, if_neg]
    simp [dropWhile_head_false ht]

theorem trimBy_end (p : Char → Bool) (s : Str) : dropEnd p (trimBy p s) = trimBy p s := by
  simp only [trimBy, dropEnd, List.reverse_reverse]
  rw [dropWhile_idem]

theorem trimBy_idem (p : Char → Bool) (s : Str) : trimBy p (trimBy p s) = trimBy p s := by
  have h : trimBy p (trimBy p s) = dropEnd p ((trimBy p s).dropWhile p) := rfl
  rw [h, trimBy_front, trimBy_end]

theorem mem_of_mem_trimBy {p : Char → Bool} {a : Char} {s : Str}
    (h : a ∈ trimBy p s) : a ∈ s := by
  simp only [trimBy, dropEnd, List.mem_reverse] at h
  exact mem_of_mem_dropWhile (List.mem_reverse.mp (mem_of_mem_dropWhile h))

theorem trimBy_map_self {p : Char → Bool} {f : Char → Char}
    (hf : ∀ c, p (f c) = p c) (s : Str) :
    trimBy p ((trimBy p s).map f) = (trimBy p s).map f := by
  have hfront : ((trimBy p s).map f).dropWhile p = (trimBy p s).map f := by
    rw [dropWhile_map_comm hf, trimBy_front]
  have hmapr : ∀ (l : Str), (l.map f).reverse = l.reverse.map f := by
    intro l; rw [List.map_reverse]
  have hend : dropEnd p ((trimBy p s).map f) = (trimBy p s).map f := by
    have h3 : (List.dropWhile p (trimBy p s).reverse).reverse = trimBy p s := by
      have h4 := trimBy_end p s
      simpa only [dropEnd] using h4
    simp only [dropEnd]
    rw [hmapr, dropWhile_map_comm hf, hmapr, h3]
  have h : trimBy p ((trimBy p s).map f) = dropEnd p (((trimBy p s).map f).dropWhile p) := rfl
  rw [h, hfront, hend]

theorem lowerChar_eq_at {c : Char} (h : lowerChar c = '@') : c = '@' := by
  by_cases hc : 65 ≤ c.toNat ∧ c.toNat ≤ 90
  · exfalso
    have he : lowerChar c = Char.ofNat (c.toNat + 32) := by
      unfold lowerChar; rw [if_pos hc]
    rw [he] at h
    obtain ⟨h1, h2⟩ := hc
    generalize hg : c.toNat = n at h1 h2 h
    interval_cases n <;> exact absurd h (by decide)
  · have he : lowerChar c = c := by unfold lowerChar; rw [if_neg hc]
    rw [he] at h
    exact h

theorem lowerChar_idem (c : Char) : lowerChar (lowerChar c) = lowerChar c := by
  by_cases hc : 65 ≤ c.toNat ∧ c.toNat ≤ 90
  · have he : lowerChar c = Char.ofNat (c.toNat + 32) := by
      unfold lowerChar; rw [if_pos hc]
    rw [he]
    obtain ⟨h1, h2⟩ := hc
    generalize hg : c.toNat = n at h1 h2 ⊢
    interval_cases n <;> decide
  · have he : lowerChar c = c := by unfold lowerChar; rw [if_neg hc]
    rw [he, he]

theorem isPySpace_lowerChar (c : Char) : isPySpace (lowerChar c) = isPySpace c := by
  by_cases hc : 65 ≤ c.toNat ∧ c.toNat ≤ 90
  · have he : lowerChar c = Char.ofNat (c.toNat + 32) := by
      unfold lowerChar; rw [if_pos hc]
    rw [he]
    obtain ⟨h1, h2⟩ := hc
    have hr : isPySpace c = false := by
      unfold isPySpace
      have hne : ∀ d : Char, d.toNat < 65 → (c == d) = false := by
        intro d hd
        apply beq_eq_false_iff_ne.mpr
        intro he2
        rw [he2] at h1
        omega
      rw [hne ' ' (by decide), hne '\t' (by decide), hne '\n' (by decide),
        hne '\r' (by decide), hne (Char.ofNat 11) (by decide), hne (Char.ofNat 12) (by decide)]
      rfl
    rw [hr]
    generalize hg : c.toNat = n at h1 h2 ⊢
    interval_cases n <;> decide
  · have he : lowerChar c = c := by unfold lowerChar; rw [if_neg hc]
    rw [he]

theorem pyStrip_idem (s : Str) : pyStrip (pyStrip s) = pyStrip s :=
  trimBy_idem isPySpace s

theorem pyLower_idem (s : Str) : pyLower (pyLower s) = pyLower s := by
  unfold pyLower
  rw [List.map_map]
  exact List.map_congr_left (fun c _ => lowerChar_idem c)

theorem pyStrip_pyLower_pyStrip (s : Str) :
    pyStrip (pyLower (pyStrip s)) = pyLower (pyStrip s) :=
  trimBy_map_self isPySpace_lowerChar s

theorem not_mem_at_pyStrip {s : Str} (h : '@' ∉ s) : '@' ∉ pyStrip s :=
  fun hm => h (mem_of_mem_trimBy hm)

theorem not_mem_at_pyLower {s : Str} (h : '@' ∉ s) : '@' ∉ pyLower s := by
  intro hm
  obtain ⟨c, hc, he⟩ := List.mem_map.mp hm
  exact h (lowerChar_eq_at he ▸ hc)

theorem idnaAscii_getD (s : Str) : (idnaAscii s).getD s = s := by
  unfold idnaAscii
  by_cases h1 : s.all isAsciiChar = true
  · rw [if_pos h1]
    by_cases h2 : s = []
    · rw [if_pos h2, h2]; rfl
    · rw [if_neg h2]
      by_cases h3 : (splitDots s).dropLast.all (fun l => 1 ≤ l.length && l.length ≤ 63) &&
          ((splitDots s).getLastD []).length ≤ 63
      · rw [if_pos h3]; rfl
      · rw [if_neg h3]; rfl
  · rw [if_neg h1]; rfl

theorem str_at_singleton : str "@" = ['@'] := rfl

/-- C7: `normalize` is idempotent on its own output for ASCII domains: when
`normalize_email` succeeds and its normalized output `n` is all ASCII,
running `normalize_email` on `n` returns the same normalized string, local
part and ascii domain. -/
theorem claim_C7_normalize_idempotent (email n l d : Str)
    (h : normalize_email idnaAscii email = some (n, l, d))
    (ha : n.all isAsciiChar = true) :
    normalize_email idnaAscii n = some (n, l, d) := by
  unfold normalize_email at h
  cases hr : rsplitAt '@' email with
  | none => rw [hr] at h; cases h
  | some p =>
    obtain ⟨loc0, dom0⟩ := p
    rw [hr] at h
    simp only [idnaAscii_getD] at h
    injection h with h'
    injection h' with hn h''
    injection h'' with hl hd
    subst hn; subst hl; subst hd
    have hdom : '@' ∉ dom0 := (rsplitAt_sound hr).2
    have hD : '@' ∉ pyLower (pyStrip dom0) := not_mem_at_pyLower (not_mem_at_pyStrip hdom)
    have hsplit : rsplitAt '@' (pyStrip loc0 ++ str "@" ++ pyLower (pyStrip dom0)) =
        some (pyStrip loc0, pyLower (pyStrip dom0)) := by
      have h1 := rsplitAt_append hD (pyStrip loc0)
      simpa [str_at_singleton, List.append_assoc] using h1
    unfold normalize_email
    rw [hsplit]
    simp only [idnaAscii_getD, pyStrip_idem, pyStrip_pyLower_pyStrip, pyLower_idem]

/-- Witness for C7 at a concrete input: normalizing `a@Example.com` gives
`a@example.com`, on which `normalize_email` is a fixed point. -/
theorem claim_C7_witness :
    normalize_email idnaAscii (str "a@example.com") =
      some (str "a@example.com", str "a", str "example.com") :=
  claim_C7_normalize_idempotent (str "a@Example.com") (str "a@example.com")
    (str "a") (str "example.com") (by decide) (by decide)

/-- C10: `check_email` with `ports = None` or `ports = []` behaves exactly as
with the default `[25]`: `ports = ports or [25]` replaces both falsy values by
`[25]` before any probing. -/
theorem claim_C10_default_ports (idna : Idna) (w : NetworkWorld) (email : Str) (mm : Nat) :
    check_email idna w email mm none = check_email idna w email mm (some [25]) ∧
    check_email idna w email mm (some []) = check_email idna w email mm (some [25]) :=
  ⟨rfl, rfl⟩

/-- C4: the single-host prober.  (i) If some port completes an SMTP session,
the outcome has `connected = true` and `accepted` holds iff the returned RCPT
reply code is 250 or 251; (ii) the outcome is exactly that of the first
completing port; (iii) if every port fails (connect error, timeout, or any
other exception), the prober returns `(False, None, None, False)`. -/
theorem claim_C4_prober :
    (∀ (net : Net) (host rcpt_addr : Str) (ports : List Int),
      (∃ p ∈ ports, ∃ c t, net host p rcpt_addr = .completes c t) →
      (smtp_try_rcpt net host ports rcpt_addr).connected = true ∧
      ((smtp_try_rcpt net host ports rcpt_addr).accepted = true ↔
        (smtp_try_rcpt net host ports rcpt_addr).reply_code = some 250 ∨
        (smtp_try_rcpt net host ports rcpt_addr).reply_code = some 251)) ∧
    (∀ (net : Net) (host rcpt_addr : Str) (pre : List Int) (p : Int) (post : List Int)
      (c : Int) (t : Str),
      (∀ q ∈ pre, net host q rcpt_addr = .fails) →
      net host p rcpt_addr = .completes c t →
      smtp_try_rcpt net host (pre ++ p :: post) rcpt_addr =
        ⟨c == 250 || c == 251, some c, some t, true⟩) ∧
    (∀ (net : Net) (host rcpt_addr : Str) (ports : List Int),
      (∀ p ∈ ports, net host p rcpt_addr = .fails) →
      smtp_try_rcpt net host ports rcpt_addr = ⟨false, none, none, false⟩) := by
  refine ⟨?_, ?_, ?_⟩
  · intro net host rcpt_addr ports hex
    induction ports with
    | nil => obtain ⟨p, hp, _⟩ := hex; cases hp
    | cons q rest ih =>
      cases hq : net host q rcpt_addr with
      | completes c t =>
        have he : smtp_try_rcpt net host (q :: rest) rcpt_addr =
            ⟨c == 250 || c == 251, some c, some t, true⟩ := by
          rw [smtp_try_rcpt, hq]
        rw [he]
        exact ⟨rfl, by simp⟩
      | fails =>
        have he : smtp_try_rcpt net host (q :: rest) rcpt_addr =
            smtp_try_rcpt net host rest rcpt_addr := by
          rw [smtp_try_rcpt, hq]
        rw [he]
        apply ih
        obtain ⟨p, hp, c, t, hc⟩ := hex
        rcases List.mem_cons.mp hp with rfl | hp'
        · rw [hq] at hc; cases hc
        · exact ⟨p, hp', c, t, hc⟩
  · intro net host rcpt_addr pre p post c t hpre hp
    induction pre with
    | nil => rw [List.nil_append, smtp_try_rcpt, hp]
    | cons q qs ih =>
      have hq : net host q rcpt_addr = .fails := hpre q (List.mem_cons_self q qs)
      rw [List.cons_append, smtp_try_rcpt, hq]
      exact ih (fun x hx => hpre x (List.mem_cons_of_mem _ hx))
  · intro net host rcpt_addr ports hall
    induction ports with
    | nil => rfl
    | cons q rest ih =>
      have hq : net host q rcpt_addr = .fails := hall q (List.mem_cons_self q rest)
      rw [smtp_try_rcpt, hq]
      exact ih (fun x hx => hall x (List.mem_cons_of_mem _ hx))

/-- Witness for C4: with a network that fails port 25 and completes port 587
with reply 250, the prober connects and accepts; with an always-failing
network it returns the all-negative outcome. -/
theorem claim_C4_witness :
    smtp_try_rcpt (fun _ p _ => if p = 25 then .fails else .completes 250 (str "ok"))
        (str "mx1") ([25] ++ 587 :: []) (str "u@example.com") =
      ⟨(250 : Int) == 250 || (250 : Int) == 251, some 250, some (str "ok"), true⟩ ∧
    smtp_try_rcpt (fun _ _ _ => .fails) (str "mx1") [25] (str "u@example.com") =
      ⟨false, none, none, false⟩ :=
  ⟨claim_C4_prober.2.1 (fun _ p _ => if p = 25 then .fails else .completes 250 (str "ok"))
      (str "mx1") (str "u@example.com") [25] 587 [] 250 (str "ok")
      (by decide) (by decide),
    claim_C4_prober.2.2 (fun _ _ _ => .fails) (str "mx1") (str "u@example.com") [25]
      (by intro p _; rfl)⟩

/-! ### Unfolding lemmas for the engine loops -/

theorem rcptLoop_cons (net : Net) (ports : List Int) (rcpt_addr : Str) (s : RcptState)
    (host : Str) (rest : List Str) :
    rcptLoop net ports rcpt_addr s (host :: rest) =
      (if (smtp_try_rcpt net host ports rcpt_addr).accepted then
        { rcptUpdate s (smtp_try_rcpt net host ports rcpt_addr) with deliverable := some true }
      else if isHard (smtp_try_rcpt net host ports rcpt_addr).reply_code then
        rcptLoop net ports rcpt_addr
          { rcptUpdate s (smtp_try_rcpt net host ports rcpt_addr) with
            deliverable := some false } rest
      else rcptLoop net ports rcpt_addr
        (rcptUpdate s (smtp_try_rcpt net host ports rcpt_addr)) rest) := rfl

theorem rcptLoop_cons_accept {net : Net} {ports : List Int} {rcpt_addr : Str}
    {host : Str} (s : RcptState) (rest : List Str)
    (hacc : (smtp_try_rcpt net host ports rcpt_addr).accepted = true) :
    rcptLoop net ports rcpt_addr s (host :: rest) =
      { rcptUpdate s (smtp_try_rcpt net host ports rcpt_addr) with
        deliverable := some true } := by
  rw [rcptLoop_cons, if_pos hacc]

theorem rcptLoop_cons_hard {net : Net} {ports : List Int} {rcpt_addr : Str}
    {host : Str} (s : RcptState) (rest : List Str)
    (hacc : (smtp_try_rcpt net host ports rcpt_addr).accepted = false)
    (hhard : isHard (smtp_try_rcpt net host ports rcpt_addr).reply_code = true) :
    rcptLoop net ports rcpt_addr s (host :: rest) =
      rcptLoop net ports rcpt_addr
        { rcptUpdate s (smtp_try_rcpt net host ports rcpt_addr) with
          deliverable := some false } rest := by
  rw [rcptLoop_cons, if_neg (by simp [hacc]), if_pos hhard]

theorem rcptLoop_cons_cont {net : Net} {ports : List Int} {rcpt_addr : Str}
    {host : Str} (s : RcptState) (rest : List Str)
    (hacc : (smtp_try_rcpt net host ports rcpt_addr).accepted = false)
    (hhard : isHard (smtp_try_rcpt net host ports rcpt_addr).reply_code = false) :
    rcptLoop net ports rcpt_addr s (host :: rest) =
      rcptLoop net ports rcpt_addr
        (rcptUpdate s (smtp_try_rcpt net host ports rcpt_addr)) rest := by
  rw [rcptLoop_cons, if_neg (by simp [hacc]), if_neg (by simp [hhard])]

theorem rcptUpdate_connectable (s : RcptState) (o : ProbeOutcome) :
    (rcptUpdate s o).smtp_connectable = (s.smtp_connectable || o.connected) := by
  unfold rcptUpdate
  by_cases h : o.connected = true ∧ o.reply_code ≠ none
  · rw [if_pos h]
  · rw [if_neg h]

theorem rcptUpdate_deliverable (s : RcptState) (o : ProbeOutcome) :
    (rcptUpdate s o).deliverable = s.deliverable := by
  unfold rcptUpdate
  by_cases h : o.connected = true ∧ o.reply_code ≠ none
  · rw [if_pos h]
  · rw [if_neg h]

theorem triedHosts_cons (net : Net) (ports : List Int) (rcpt_addr : Str)
    (host : Str) (rest : List Str) :
    triedHosts net ports rcpt_addr (host :: rest) =
      (if (smtp_try_rcpt net host ports rcpt_addr).accepted then [host]
      else host :: triedHosts net ports rcpt_addr rest) := rfl

theorem rcptLoop_connectable (net : Net) (ports : List Int) (rcpt_addr : Str) :
    ∀ (hosts : List Str) (s : RcptState),
    (rcptLoop net ports rcpt_addr s hosts).smtp_connectable =
      (s.smtp_connectable ||
        (triedHosts net ports rcpt_addr hosts).any
          (fun h => (smtp_try_rcpt net h ports rcpt_addr).connected)) := by
  intro hosts
  induction hosts with
  | nil => intro s; simp [rcptLoop, triedHosts]
  | cons host rest ih =>
    intro s
    by_cases hacc : (smtp_try_rcpt net host ports rcpt_addr).accepted = true
    · rw [rcptLoop_cons_accept s rest hacc, triedHosts_cons, if_pos hacc]
      simp [rcptUpdate_connectable]
    · have hacc' : (smtp_try_rcpt net host ports rcpt_addr).accepted = false := by
        simpa using hacc
      rw [triedHosts_cons, if_neg hacc]
      by_cases hhard : isHard (smtp_try_rcpt net host ports rcpt_addr).reply_code = true
      · rw [rcptLoop_cons_hard s rest hacc' hhard, ih]
        simp [rcptUpdate_connectable, Bool.or_assoc]
      · have hhard' : isHard (smtp_try_rcpt net host ports rcpt_addr).reply_code = false := by
          simpa using hhard
        rw [rcptLoop_cons_cont s rest hacc' hhard', ih]
        simp [rcptUpdate_connectable, Bool.or_assoc]

theorem rcptLoop_stop_at_accept (net : Net) (ports : List Int) (rcpt_addr : Str) :
    ∀ (pre : List Str) (s : RcptState) (hostA : Str) (post : List Str),
    (∀ x ∈ pre, (smtp_try_rcpt net x ports rcpt_addr).accepted = false) →
    (smtp_try_rcpt net hostA ports rcpt_addr).accepted = true →
    rcptLoop net ports rcpt_addr s (pre ++ hostA :: post) =
      rcptLoop net ports rcpt_addr s (pre ++ [hostA]) ∧
    (rcptLoop net ports rcpt_addr s (pre ++ hostA :: post)).deliverable = some true := by
  intro pre
  induction pre with
  | nil =>
    intro s hostA post _ hacc
    simp only [List.nil_append]
    rw [rcptLoop_cons_accept s post hacc, rcptLoop_cons_accept s ([] : List Str) hacc]
    exact ⟨rfl, rfl⟩
  | cons x xs ih =>
    intro s hostA post hpre hacc
    have hx : (smtp_try_rcpt net x ports rcpt_addr).accepted = false :=
      hpre x (List.mem_cons_self _ _)
    have hxs : ∀ y ∈ xs, (smtp_try_rcpt net y ports rcpt_addr).accepted = false :=
      fun y hy => hpre y (List.mem_cons_of_mem _ hy)
    simp only [List.cons_append]
    by_cases hhard : isHard (smtp_try_rcpt net x ports rcpt_addr).reply_code = true
    · rw [rcptLoop_cons_hard s (xs ++ hostA :: post) hx hhard,
        rcptLoop_cons_hard s (xs ++ [hostA]) hx hhard]
      exact ih _ hostA post hxs hacc
    · have hhard' : isHard (smtp_try_rcpt net x ports rcpt_addr).reply_code = false := by
        simpa using hhard
      rw [rcptLoop_cons_cont s (xs ++ hostA :: post) hx hhard',
        rcptLoop_cons_cont s (xs ++ [hostA]) hx hhard']
      exact ih _ hostA post hxs hacc

/-- C2: the real-recipient pass.  (i) Hosts are probed in list order and
iteration stops at the first accepted probe (the hosts after it are
irrelevant and the tentative verdict is true); (ii) a host whose RCPT reply
code is in {550, 551, 552, 553, 554} sets the tentative verdict to false and
iteration continues with the remaining hosts; (iii) a reply code in
{421, 450, 451, 452} leaves the tentative verdict untouched and iteration
continues; (iv) the loop's `smtp_connectable` is the logical OR of the
`connected` flags of every probe made; (v) that value is stored verbatim in
the result produced by the SMTP stage of `check_email`. -/
theorem claim_C2_host_iteration :
    (∀ (net : Net) (ports : List Int) (rcpt_addr : Str) (pre : List Str) (s : RcptState)
      (hostA : Str) (post : List Str),
      (∀ x ∈ pre, (smtp_try_rcpt net x ports rcpt_addr).accepted = false) →
      (smtp_try_rcpt net hostA ports rcpt_addr).accepted = true →
      rcptLoop net ports rcpt_addr s (pre ++ hostA :: post) =
        rcptLoop net ports rcpt_addr s (pre ++ [hostA]) ∧
      (rcptLoop net ports rcpt_addr s (pre ++ hostA :: post)).deliverable = some true) ∧
    (∀ (net : Net) (ports : List Int) (rcpt_addr : Str) (s : RcptState) (host : Str)
      (rest : List Str) (c : Int),
      (smtp_try_rcpt net host ports rcpt_addr).accepted = false →
      (smtp_try_rcpt net host ports rcpt_addr).reply_code = some c →
      c ∈ [(550 : Int), 551, 552, 553, 554] →
      rcptLoop net ports rcpt_addr s (host :: rest) =
        rcptLoop net ports rcpt_addr
          { rcptUpdate s (smtp_try_rcpt net host ports rcpt_addr) with
            deliverable := some false } rest) ∧
    (∀ (net : Net) (ports : List Int) (rcpt_addr : Str) (s : RcptState) (host : Str)
      (rest : List Str) (c : Int),
      (smtp_try_rcpt net host ports rcpt_addr).accepted = false →
      (smtp_try_rcpt net host ports rcpt_addr).reply_code = some c →
      c ∈ [(421 : Int), 450, 451, 452] →
      rcptLoop net ports rcpt_addr s (host :: rest) =
        rcptLoop net ports rcpt_addr
          (rcptUpdate s (smtp_try_rcpt net host ports rcpt_addr)) rest ∧
      (rcptUpdate s (smtp_try_rcpt net host ports rcpt_addr)).deliverable = s.deliverable) ∧
    (∀ (net : Net) (ports : List Int) (rcpt_addr : Str) (hosts : List Str),
      (rcptLoop net ports rcpt_addr initRcptState hosts).smtp_connectable =
        (triedHosts net ports rcpt_addr hosts).any
          (fun h => (smtp_try_rcpt net h ports rcpt_addr).connected)) ∧
    (∀ (w : NetworkWorld) (ports : List Int) (email normalized domain : Str)
      (domain_has_mx : Bool) (mx_hosts : List Str),
      (checkEmailResolved w ports email normalized domain domain_has_mx
          mx_hosts).smtp_connectable =
        (rcptLoop w.attempt ports normalized initRcptState mx_hosts).smtp_connectable) := by
  refine ⟨rcptLoop_stop_at_accept, ?_, ?_, ?_, ?_⟩
  · intro net ports rcpt_addr s host rest c hacc hcode hc
    have hhard : isHard (smtp_try_rcpt net host ports rcpt_addr).reply_code = true := by
      rw [hcode]
      simp at hc
      rcases hc with rfl | rfl | rfl | rfl | rfl <;> rfl
    exact rcptLoop_cons_hard s rest hacc hhard
  · intro net ports rcpt_addr s host rest c hacc hcode hc
    have hhard : isHard (smtp_try_rcpt net host ports rcpt_addr).reply_code = false := by
      rw [hcode]
      simp at hc
      rcases hc with rfl | rfl | rfl | rfl <;> rfl
    exact ⟨rcptLoop_cons_cont s rest hacc hhard, rcptUpdate_deliverable s _⟩
  · intro net ports rcpt_addr hosts
    rw [rcptLoop_connectable]
    rfl
  · intro w ports email normalized domain domain_has_mx mx_hosts
    rfl

/-- Witness for C2 at concrete inputs: a soft-failing host followed by an
accepting host; the loop ignores the host after the accepting one and ends
with a true tentative verdict. -/
theorem claim_C2_witness :
    rcptLoop cnetC2 [25] (str "r@x.com") initRcptState
        ([str "soft1"] ++ str "acc" :: [str "unused"]) =
      rcptLoop cnetC2 [25] (str "r@x.com") initRcptState ([str "soft1"] ++ [str "acc"]) ∧
    (rcptLoop cnetC2 [25] (str "r@x.com") initRcptState
        ([str "soft1"] ++ str "acc" :: [str "unused"])).deliverable = some true :=
  claim_C2_host_iteration.1 cnetC2 [25] (str "r@x.com") [str "soft1"] initRcptState
    (str "acc") [str "unused"] (by decide) (by decide)

theorem catchAllLoop_cons (net : Net) (ports : List Int) (probe_addr : Str)
    (host : Str) (rest : List Str) :
    catchAllLoop net ports probe_addr (host :: rest) =
      (if (smtp_try_rcpt net host ports probe_addr).accepted then some true
      else if isHard (smtp_try_rcpt net host ports probe_addr).reply_code then some false
      else catchAllLoop net ports probe_addr rest) := rfl

theorem catchAllLoop_all_indecisive (net : Net) (ports : List Int) (probe_addr : Str) :
    ∀ (hosts : List Str),
    (∀ x ∈ hosts, indecisiveProbe (smtp_try_rcpt net x ports probe_addr)) →
    catchAllLoop net ports probe_addr hosts = none := by
  intro hosts
  induction hosts with
  | nil => intro _; rfl
  | cons host rest ih =>
    intro hall
    obtain ⟨hacc, hhard⟩ := hall host (List.mem_cons_self _ _)
    rw [catchAllLoop_cons, if_neg (by simp [hacc]), if_neg (by simp [hhard])]
    exact ih (fun x hx => hall x (List.mem_cons_of_mem _ hx))

theorem checkEmailResolved_catch_all (w : NetworkWorld) (ports : List Int)
    (email normalized domain : Str) (domain_has_mx : Bool) (mx_hosts : List Str) :
    (checkEmailResolved w ports email normalized domain domain_has_mx
        mx_hosts).is_catch_all =
      (if (rcptLoop w.attempt ports normalized initRcptState mx_hosts).deliverable =
          some true then
        some ((catchAllLoop w.attempt ports (w.probeLocal ++ str "@" ++ domain)
          mx_hosts).getD false)
      else none) := rfl

/-- C3: the catch-all pass.  (i) It runs exactly when the tentative verdict of
the real pass is true, and then `is_catch_all` is some boolean (never null);
(ii) when the verdict is not true, `is_catch_all` stays null; (iii) when the
first decisive probe of the pass is accepted, the pass answers true; (iv) when
the first decisive probe replies with a hard-negative code in
{550, 551, 552, 553, 554}, the pass answers false; (v) when every probe is
indecisive the loop yields nothing; and (vi) in that case the result field
`is_catch_all` defaults to false. -/
theorem claim_C3_catch_all :
    (∀ (w : NetworkWorld) (ports : List Int) (email normalized domain : Str)
      (domain_has_mx : Bool) (mx_hosts : List Str),
      (rcptLoop w.attempt ports normalized initRcptState mx_hosts).deliverable = some true →
      (checkEmailResolved w ports email normalized domain domain_has_mx
          mx_hosts).is_catch_all =
        some ((catchAllLoop w.attempt ports (w.probeLocal ++ str "@" ++ domain)
          mx_hosts).getD false) ∧
      (checkEmailResolved w ports email normalized domain domain_has_mx
          mx_hosts).is_catch_all ≠ none) ∧
    (∀ (w : NetworkWorld) (ports : List Int) (email normalized domain : Str)
      (domain_has_mx : Bool) (mx_hosts : List Str),
      (rcptLoop w.attempt ports normalized initRcptState mx_hosts).deliverable ≠ some true →
      (checkEmailResolved w ports email normalized domain domain_has_mx
          mx_hosts).is_catch_all = none) ∧
    (∀ (net : Net) (ports : List Int) (probe_addr : Str) (pre : List Str) (hostA : Str)
      (post : List Str),
      (∀ x ∈ pre, indecisiveProbe (smtp_try_rcpt net x ports probe_addr)) →
      (smtp_try_rcpt net hostA ports probe_addr).accepted = true →
      catchAllLoop net ports probe_addr (pre ++ hostA :: post) = some true) ∧
    (∀ (net : Net) (ports : List Int) (probe_addr : Str) (pre : List Str) (hostA : Str)
      (post : List Str) (c : Int),
      (∀ x ∈ pre, indecisiveProbe (smtp_try_rcpt net x ports probe_addr)) →
      (smtp_try_rcpt net hostA ports probe_addr).accepted = false →
      (smtp_try_rcpt net hostA ports probe_addr).reply_code = some c →
      c ∈ [(550 : Int), 551, 552, 553, 554] →
      catchAllLoop net ports probe_addr (pre ++ hostA :: post) = some false) ∧
    (∀ (net : Net) (ports : List Int) (probe_addr : Str) (hosts : List Str),
      (∀ x ∈ hosts, indecisiveProbe (smtp_try_rcpt net x ports probe_addr)) →
      catchAllLoop net ports probe_addr hosts = none) ∧
    (∀ (w : NetworkWorld) (ports : List Int) (email normalized domain : Str)
      (domain_has_mx : Bool) (mx_hosts : List Str),
      (rcptLoop w.attempt ports normalized initRcptState mx_hosts).deliverable = some true →
      (∀ x ∈ mx_hosts, indecisiveProbe
        (smtp_try_rcpt w.attempt x ports (w.probeLocal ++ str "@" ++ domain))) →
      (checkEmailResolved w ports email normalized domain domain_has_mx
          mx_hosts).is_catch_all = some false) := by
  refine ⟨?_, ?_, ?_, ?_, catchAllLoop_all_indecisive, ?_⟩
  · intro w ports email normalized domain domain_has_mx mx_hosts hdel
    rw [checkEmailResolved_catch_all, if_pos hdel]
    exact ⟨rfl, by simp⟩
  · intro w ports email normalized domain domain_has_mx mx_hosts hdel
    rw [checkEmailResolved_catch_all, if_neg hdel]
  · intro net ports probe_addr pre hostA post hpre hacc
    induction pre with
    | nil =>
      rw [List.nil_append, catchAllLoop_cons, if_pos hacc]
    | cons x xs ih =>
      obtain ⟨hxacc, hxhard⟩ := hpre x (List.mem_cons_self _ _)
      rw [List.cons_append, catchAllLoop_cons, if_neg (by simp [hxacc]),
        if_neg (by simp [hxhard])]
      exact ih (fun y hy => hpre y (List.mem_cons_of_mem _ hy))
  · intro net ports probe_addr pre hostA post c hpre hacc hcode hc
    have hhard : isHard (smtp_try_rcpt net hostA ports probe_addr).reply_code = true := by
      rw [hcode]
      simp at hc
      rcases hc with rfl | rfl | rfl | rfl | rfl <;> rfl
    induction pre with
    | nil =>
      rw [List.nil_append, catchAllLoop_cons, if_neg (by simp [hacc]), if_pos hhard]
    | cons x xs ih =>
      obtain ⟨hxacc, hxhard⟩ := hpre x (List.mem_cons_self _ _)
      rw [List.cons_append, catchAllLoop_cons, if_neg (by simp [hxacc]),
        if_neg (by simp [hxhard])]
      exact ih (fun y hy => hpre y (List.mem_cons_of_mem _ hy))
  · intro w ports email normalized domain domain_has_mx mx_hosts hdel hall
    rw [checkEmailResolved_catch_all, if_pos hdel,
      catchAllLoop_all_indecisive _ _ _ _ hall]
    rfl

/-- Witness for C3: in the world `wAcc` the real address is accepted by the
first MX host, so the catch-all pass runs and `is_catch_all` is not null. -/
theorem claim_C3_witness :
    (checkEmailResolved wAcc [25] (str "u@example.com") (str "u@example.com")
        (str "example.com") true [str "mx1"]).is_catch_all =
      some ((catchAllLoop wAcc.attempt [25]
        (wAcc.probeLocal ++ str "@" ++ str "example.com") [str "mx1"]).getD false) ∧
    (checkEmailResolved wAcc [25] (str "u@example.com") (str "u@example.com")
        (str "example.com") true [str "mx1"]).is_catch_all ≠ none :=
  claim_C3_catch_all.1 wAcc [25] (str "u@example.com") (str "u@example.com")
    (str "example.com") true [str "mx1"] (by decide)

theorem classify_status_cases (st : RcptState) (ica : Option Bool) :
    (classify st ica).1 = str "unknown" ∨ (classify st ica).1 = str "deliverable" ∨
      (classify st ica).1 = str "undeliverable" := by
  unfold classify
  by_cases h1 : st.smtp_connectable = false ∧ st.deliverable = none
  · rw [if_pos h1]; exact Or.inl rfl
  · rw [if_neg h1]
    by_cases h2 : st.deliverable = some true ∧ ica = some true
    · rw [if_pos h2]; exact Or.inl rfl
    · rw [if_neg h2]
      by_cases h3 : st.deliverable = some true
      · rw [if_pos h3]; exact Or.inr (Or.inl rfl)
      · rw [if_neg h3]
        by_cases h4 : st.deliverable = some false
        · rw [if_pos h4]; exact Or.inr (Or.inr rfl)
        · rw [if_neg h4]; exact Or.inl rfl

theorem checkEmailResolved_status_cases (w : NetworkWorld) (ports : List Int)
    (email normalized domain : Str) (domain_has_mx : Bool) (mx_hosts : List Str) :
    (checkEmailResolved w ports email normalized domain domain_has_mx
        mx_hosts).status = str "unknown" ∨
    (checkEmailResolved w ports email normalized domain domain_has_mx
        mx_hosts).status = str "deliverable" ∨
    (checkEmailResolved w ports email normalized domain domain_has_mx
        mx_hosts).status = str "undeliverable" :=
  classify_status_cases _ _

/-- Case analysis on the control flow of `check_email`: it returns through the
`missing_at` early return, the ` is_valid_syntax` early return, the
`invalid_domain` early return, or the SMTP stage. -/
theorem check_email_shape (idna : Idna) (w : NetworkWorld) (email : Str) (mm : Nat)
    (ps : Option (List Int)) :
    (normalize_email idna email = none ∧
      check_email idna w email mm ps = missingAtResult email) ∨
    (∃ n loc d, normalize_email idna email = some (n, loc, d) ∧
      ( is_valid_syntax idna n).1 = false ∧
      check_email idna w email mm ps =
        invalidSyntaxResult email n d ( is_valid_syntax idna n).2) ∨
    (∃ n loc d, normalize_email idna email = some (n, loc, d) ∧
      ( is_valid_syntax idna n).1 = true ∧
      check_email idna w email mm ps = invalidDomainResult email n d) ∨
    (∃ n loc d hosts, normalize_email idna email = some (n, loc, d) ∧
      ( is_valid_syntax idna n).1 = true ∧
      check_email idna w email mm ps =
        checkEmailResolved w (effectivePorts ps) email n d (!(w.mx d).isEmpty) hosts) := by
  cases hn : normalize_email idna email with
  | none =>
    exact Or.inl ⟨rfl, by simp only [check_email, hn]⟩
  | some t =>
    obtain ⟨n, loc, d⟩ := t
    by_cases hv : ( is_valid_syntax idna n).1 = false
    · refine Or.inr (Or.inl ⟨n, loc, d, rfl, hv, ?_⟩)
      simp only [check_email, hn]
      rw [if_pos hv]
    · have hv' : ( is_valid_syntax idna n).1 = true := by
        cases hb : ( is_valid_syntax idna n).1
        · exact absurd hb hv
        · rfl
      by_cases hmx : ((w.mx d).map Prod.snd).take mm = []
      · by_cases ha : w.aRecords d = []
        · refine Or.inr (Or.inr (Or.inl ⟨n, loc, d, rfl, hv', ?_⟩))
          simp only [check_email, hn]
          rw [if_neg hv, if_pos hmx, if_pos ha]
        · refine Or.inr (Or.inr (Or.inr ⟨n, loc, d, [d], rfl, hv', ?_⟩))
          simp only [check_email, hn]
          rw [if_neg hv, if_pos hmx, if_neg ha]
      · refine Or.inr (Or.inr (Or.inr
          ⟨n, loc, d, ((w.mx d).map Prod.snd).take mm, rfl, hv', ?_⟩))
        simp only [check_email, hn]
        rw [if_neg hv, if_neg hmx]

/-- C1: whenever `check_email` reports `invalid_syntax`, the result has
` is_valid_syntax = false` and an empty `mx_hosts` list, and the whole result
is independent of the network world — no DNS or SMTP work contributed to
it. -/
theorem claim_C1_invalid_syntax_shortcircuit (idna : Idna) (w w' : NetworkWorld)
    (email : Str) (mm : Nat) (ps : Option (List Int))
    (h : (check_email idna w email mm ps).status = str "invalid_syntax") :
    EmailValidationResult.is_valid_syntax (check_email idna w email mm ps) = false ∧
    (check_email idna w email mm ps).mx_hosts = [] ∧
    check_email idna w' email mm ps = check_email idna w email mm ps := by
  rcases check_email_shape idna w email mm ps with
    ⟨hn, he⟩ | ⟨n, loc, d, hn, hv, he⟩ | ⟨n, loc, d, hn, hv, he⟩ |
    ⟨n, loc, d, hosts, hn, hv, he⟩
  · have he' : check_email idna w' email mm ps = missingAtResult email := by
      simp only [check_email, hn]
    rw [he, he']
    exact ⟨rfl, rfl, rfl⟩
  · have he' : check_email idna w' email mm ps =
        invalidSyntaxResult email n d ( is_valid_syntax idna n).2 := by
      simp only [check_email, hn]
      rw [if_pos hv]
    rw [he, he']
    exact ⟨rfl, rfl, rfl⟩
  · rw [he] at h
    have hs : (invalidDomainResult email n d).status = str "invalid_domain" := rfl
    rw [hs] at h
    exact absurd h (by decide)
  · rw [he] at h
    rcases checkEmailResolved_status_cases w (effectivePorts ps) email n d
        (!(w.mx d).isEmpty) hosts with h1 | h1 | h1 <;>
      rw [h1] at h <;> exact absurd h (by decide)

/-- Witness for C1 at a concrete input: `noat` has no `@`, the result is
`invalid_syntax` with the advertised fields, and any other world (here
`wAcc`) produces the identical result. -/
theorem claim_C1_witness :
    EmailValidationResult.is_valid_syntax
        (check_email idnaAscii wEmpty (str "noat") 3 none) = false ∧
    (check_email idnaAscii wEmpty (str "noat") 3 none).mx_hosts = [] ∧
    check_email idnaAscii wAcc (str "noat") 3 none =
      check_email idnaAscii wEmpty (str "noat") 3 none :=
  claim_C1_invalid_syntax_shortcircuit idnaAscii wEmpty wAcc (str "noat") 3 none (by decide)

/-- C9: on both short-circuit paths (`invalid_syntax` and `invalid_domain`)
the result carries `is_deliverable = some false` — never the null
tri-state — while `is_catch_all` and `is_disposable` stay null. -/
theorem claim_C9_short_circuit_fields (idna : Idna) (w : NetworkWorld) (email : Str)
    (mm : Nat) (ps : Option (List Int))
    (h : (check_email idna w email mm ps).status = str "invalid_syntax" ∨
      (check_email idna w email mm ps).status = str "invalid_domain") :
    (check_email idna w email mm ps).is_deliverable = some false ∧
    (check_email idna w email mm ps).is_catch_all = none ∧
    (check_email idna w email mm ps).is_disposable = none := by
  rcases check_email_shape idna w email mm ps with
    ⟨hn, he⟩ | ⟨n, loc, d, hn, hv, he⟩ | ⟨n, loc, d, hn, hv, he⟩ |
    ⟨n, loc, d, hosts, hn, hv, he⟩
  · rw [he]
    exact ⟨rfl, rfl, rfl⟩
  · rw [he]
    exact ⟨rfl, rfl, rfl⟩
  · rw [he]
    exact ⟨rfl, rfl, rfl⟩
  · exfalso
    rcases checkEmailResolved_status_cases w (effectivePorts ps) email n d
        (!(w.mx d).isEmpty) hosts with h1 | h1 | h1 <;>
      rcases h with h | h <;> rw [he, h1] at h <;> exact absurd h (by decide)

/-- Witness for C9 at a concrete input: `u@example.com` in the empty world has
no MX and no A record, so the status is `invalid_domain` and the three
short-circuit field values hold. -/
theorem claim_C9_witness :
    (check_email idnaAscii wEmpty (str "u@example.com") 3 none).is_deliverable =
      some false ∧
    (check_email idnaAscii wEmpty (str "u@example.com") 3 none).is_catch_all = none ∧
    (check_email idnaAscii wEmpty (str "u@example.com") 3 none).is_disposable = none :=
  claim_C9_short_circuit_fields idnaAscii wEmpty (str "u@example.com") 3 none
    (Or.inr (by decide))

/-- C8: the CLI exit-code mapping over a single-address result: the status of
a `check_email` result is one of the five documented strings, and the exit
code is 0 for `deliverable`, 1 for `invalid_syntax`, `invalid_domain` and
`undeliverable`, and 2 for `unknown` (the argparse argument-error exit code 2
is standard-library behaviour outside this module). -/
theorem claim_C8_exit_codes (idna : Idna) (w : NetworkWorld) (email : Str)
    (mm : Nat) (ps : Option (List Int)) :
    ((check_email idna w email mm ps).status = str "deliverable" ∨
      (check_email idna w email mm ps).status = str "undeliverable" ∨
      (check_email idna w email mm ps).status = str "unknown" ∨
      (check_email idna w email mm ps).status = str "invalid_syntax" ∨
      (check_email idna w email mm ps).status = str "invalid_domain") ∧
    ((check_email idna w email mm ps).status = str "deliverable" →
      exitCodeOfStatus (check_email idna w email mm ps).status = 0) ∧
    ((check_email idna w email mm ps).status = str "invalid_syntax" ∨
      (check_email idna w email mm ps).status = str "invalid_domain" ∨
      (check_email idna w email mm ps).status = str "undeliverable" →
      exitCodeOfStatus (check_email idna w email mm ps).status = 1) ∧
    ((check_email idna w email mm ps).status = str "unknown" →
      exitCodeOfStatus (check_email idna w email mm ps).status = 2) := by
  refine ⟨?_, ?_, ?_, ?_⟩
  · rcases check_email_shape idna w email mm ps with
      ⟨hn, he⟩ | ⟨n, loc, d, hn, hv, he⟩ | ⟨n, loc, d, hn, hv, he⟩ |
      ⟨n, loc, d, hosts, hn, hv, he⟩
    · rw [he]; exact Or.inr (Or.inr (Or.inr (Or.inl rfl)))
    · rw [he]; exact Or.inr (Or.inr (Or.inr (Or.inl rfl)))
    · rw [he]; exact Or.inr (Or.inr (Or.inr (Or.inr rfl)))
    · rcases checkEmailResolved_status_cases w (effectivePorts ps) email n d
          (!(w.mx d).isEmpty) hosts with h1 | h1 | h1
      · rw [he, h1]; exact Or.inr (Or.inr (Or.inl rfl))
      · rw [he, h1]; exact Or.inl rfl
      · rw [he, h1]; exact Or.inr (Or.inl rfl)
  · intro h; rw [h]; decide
  · intro h; rcases h with h | h | h <;> rw [h] <;> decide
  · intro h; rw [h]; decide

/-- Witness for C8 at a concrete input: `noat` yields `invalid_syntax`, whose
exit code is 1. -/
theorem claim_C8_witness :
    exitCodeOfStatus (check_email idnaAscii wEmpty (str "noat") 3 none).status = 1 :=
  (claim_C8_exit_codes idnaAscii wEmpty (str "noat") 3 none).2.2.1 (Or.inl (by decide))

/-- Counterexample to C5: for `a..b@c..d` the domain `c..d` cannot be
IDNA-encoded, yet validation fails with `local_dots`, not `domain_idna` —
in the code the local-part checks run before the IDNA step, while the spec
orders the IDNA step (rule 3) before the local-part checks (rule 4). -/
theorem claim_C5_counterexample :
    idnaAscii (pyLower (pyStrip (str "c..d"))) = none ∧
    is_valid_syntax idnaAscii (str "a..b@c..d") = (false, some (str "local_dots")) ∧
    (check_email idnaAscii wEmpty (str "a..b@c..d") 3 none).reason =
      some (str "local_dots") ∧
    ¬ is_valid_syntax idnaAscii (str "a..b@c..d") = (false, some (str "domain_idna")) := by
  decide

/-- C5 as amended: when the domain part cannot be IDNA-encoded *and the local
part passes the local-part checks* (length, dots, character class), validation
fails with `domain_idna`; the local-part checks precede the IDNA step, so a
failing local part is reported instead. -/
theorem claim_C5_amended (idna : Idna) (email loc domain : Str)
    (hs : rsplitAt '@' email = some (loc, domain))
    (hlen : 1 ≤ loc.length ∧ loc.length ≤ 64)
    (hdots : ¬(loc.head? = some '.' ∨ loc.getLast? = some '.' ∨ hasDoubleDot loc = true))
    (hchars : loc ≠ [] ∧ loc.all localCharOk = true)
    (hidna : idna domain = none) :
    is_valid_syntax idna email = (false, some (str "domain_idna")) := by
  simp only [ is_valid_syntax, hs]
  rw [if_neg (not_not_intro hlen), if_neg hdots, if_neg (not_not_intro hchars), hidna]

/-- Witness for the amended C5: `ok@c..d` has a clean local part and an
un-encodable domain, and fails with `domain_idna`. -/
theorem claim_C5_witness :
    is_valid_syntax idnaAscii (str "ok@c..d") = (false, some (str "domain_idna")) :=
  claim_C5_amended idnaAscii (str "ok@c..d") (str "ok") (str "c..d")
    (by decide) (by decide) (by decide) (by decide) (by decide)

theorem mem_of_getLast?_eq {l : Str} {a : Char} (h : l.getLast? = some a) : a ∈ l := by
  have h2 := List.dropLast_append_getLast? a (Option.mem_def.mpr h)
  rw [← h2]
  exact List.mem_append_right _ (List.mem_cons_self _ _)

theorem not_dot_of_all_alnum {label : Str} (hal : label.all isAlnum = true) :
    '.' ∉ label :=
  fun hm => absurd (List.all_eq_true.mp hal '.' hm) (by decide)

theorem not_at_of_all_alnum {label : Str} (hal : label.all isAlnum = true) :
    '@' ∉ label :=
  fun hm => absurd (List.all_eq_true.mp hal '@' hm) (by decide)

theorem ascii_of_all_alnum {label : Str} (hal : label.all isAlnum = true) :
    label.all isAsciiChar = true := by
  apply List.all_eq_true.mpr
  intro x hx
  have h := List.all_eq_true.mp hal x hx
  unfold isAlnum at h
  unfold isAsciiChar
  simp only [Bool.or_eq_true, Bool.and_eq_true, decide_eq_true_eq] at h
  simp only [decide_eq_true_eq]
  omega

theorem labelMatches_cons (c : Char) (rest : Str) :
    labelMatches (c :: rest) =
      (match rest.getLast? with
      | none => isAlnum c
      | some d => isAlnum c && isAlnum d && rest.dropLast.all labelCharOk &&
          rest.length ≤ 62) := rfl

theorem labelMatches_of_alnum {label : Str} (hne : label ≠ [])
    (hal : label.all isAlnum = true) (hlen : label.length ≤ 63) :
    labelMatches label = true := by
  cases label with
  | nil => exact absurd rfl hne
  | cons c rest =>
    have hc : isAlnum c = true := List.all_eq_true.mp hal c (List.mem_cons_self _ _)
    rw [labelMatches_cons]
    cases hr : rest.getLast? with
    | none => exact hc
    | some d =>
      have hd : isAlnum d = true :=
        List.all_eq_true.mp hal d (List.mem_cons_of_mem _ (mem_of_getLast?_eq hr))
      have hdrop : rest.dropLast.all labelCharOk = true := by
        apply List.all_eq_true.mpr
        intro x hx
        have hxm : x ∈ rest := (List.dropLast_sublist rest).subset hx
        have hxa : isAlnum x = true :=
          List.all_eq_true.mp hal x (List.mem_cons_of_mem _ hxm)
        unfold labelCharOk
        rw [hxa]
        rfl
      have hrl : rest.length ≤ 62 := by
        rw [List.length_cons] at hlen
        omega
      simp [hc, hd, hdrop, hrl]

theorem checkLabels_cons (l : Str) (rest : List Str) :
    checkLabels (l :: rest) =
      (if ¬(1 ≤ l.length ∧ l.length ≤ 63) then some (str "label_length")
      else if ¬(labelMatches l = true) then some (str "label_chars")
      else checkLabels rest) := rfl

/-- Counterexample to C6: an address whose domain has a 64-character label
fails with reason `domain_idna`, not `label_length`: the IDNA encoding step
raises on over-long labels before the explicit label-length check can run. -/
theorem claim_C6_counterexample :
    is_valid_syntax idnaAscii (str "a@" ++ List.replicate 64 'a' ++ str ".com") =
      (false, some (str "domain_idna")) ∧
    ¬ is_valid_syntax idnaAscii (str "a@" ++ List.replicate 64 'a' ++ str ".com") =
      (false, some (str "label_length")) := by
  decide

/-- C6 as amended: in an otherwise valid address `a@<label>.com` built from an
alphanumeric label, a label of at most (and so exactly) 63 characters passes
validation, while a label of 64 characters fails — with reason `domain_idna`
rather than `label_length`, because the IDNA encoding step rejects labels
longer than 63 characters before the per-label length check runs. -/
theorem claim_C6_amended (label : Str) (hne : label ≠ [])
    (hal : label.all isAlnum = true) :
    (label.length ≤ 63 →
      is_valid_syntax idnaAscii (str "a@" ++ label ++ str ".com") = (true, none)) ∧
    (label.length = 64 →
      is_valid_syntax idnaAscii (str "a@" ++ label ++ str ".com") =
        (false, some (str "domain_idna"))) := by
  have hnodot : '.' ∉ label := not_dot_of_all_alnum hal
  have hnoat : '@' ∉ label := not_at_of_all_alnum hal
  have hdomnoat : '@' ∉ label ++ '.' :: str "com" := by
    intro hm
    rcases List.mem_append.mp hm with hm1 | hm2
    · exact hnoat hm1
    · exact absurd hm2 (by decide)
  have heq : str "a@" ++ label ++ str ".com" = 'a' :: '@' :: (label ++ '.' :: str "com") := by
    have h0 : str "a@" = ['a', '@'] := rfl
    have h1 : str ".com" = '.' :: str "com" := rfl
    rw [h0, h1]
    simp
  have hsplit : rsplitAt '@' ('a' :: '@' :: (label ++ '.' :: str "com")) =
      some (['a'], label ++ '.' :: str "com") := by
    have h1 := rsplitAt_append hdomnoat ['a']
    simpa using h1
  have hsd : splitDots (label ++ '.' :: str "com") = [label, str "com"] := by
    rw [splitDots_append hnodot, splitDots_no_dot (by decide)]
  have hlen4 : (label ++ '.' :: str "com").length = label.length + 4 := by
    have h1 : (str "com").length = 3 := rfl
    simp only [List.length_append, List.length_cons, h1]
  have hascii : (label ++ '.' :: str "com").all isAsciiChar = true := by
    rw [List.all_append, ascii_of_all_alnum hal]
    decide
  have hdomne : label ++ '.' :: str "com" ≠ [] := by
    intro h0
    rcases List.append_eq_nil.mp h0 with ⟨_, h2⟩
    cases h2
  have hdrop : ([label, str "com"] : List Str).dropLast = [label] := rfl
  have hlast : ([label, str "com"] : List Str).getLastD [] = str "com" := rfl
  constructor
  · intro hle
    have h1l : 1 ≤ label.length := List.length_pos.mpr hne
    have hcond : (([label, str "com"] : List Str).dropLast.all
        (fun l => 1 ≤ l.length && l.length ≤ 63) &&
        (([label, str "com"] : List Str).getLastD []).length ≤ 63) = true := by
      rw [hdrop, hlast]
      simp only [List.all_cons, List.all_nil, Bool.and_true, Bool.and_eq_true,
        decide_eq_true_eq]
      exact ⟨⟨h1l, hle⟩, by decide⟩
    have hidna : idnaAscii (label ++ '.' :: str "com") =
        some (label ++ '.' :: str "com") := by
      unfold idnaAscii
      rw [if_pos hascii, if_neg hdomne]
      simp only [hsd]
      rw [if_pos hcond]
    have hck : checkLabels [label, str "com"] = none := by
      rw [checkLabels_cons, if_neg (not_not_intro ⟨h1l, hle⟩),
        if_neg (not_not_intro (labelMatches_of_alnum hne hal hle)),
        checkLabels_cons, if_neg (by decide), if_neg (by decide)]
      rfl
    rw [heq]
    simp only [ is_valid_syntax, hsplit]
    rw [if_neg (by decide), if_neg (by decide), if_neg (by decide)]
    simp only [hidna]
    rw [if_neg (by rw [hlen4]; omega)]
    simp only [hsd]
    have hlen2 : ¬(([label, str "com"] : List Str).length < 2) := by
      have : ([label, str "com"] : List Str).length = 2 := rfl
      omega
    rw [if_neg hlen2]
    simp only [hck]
    rw [hlast, if_neg (by decide)]
  · intro h64
    have hcondf : (([label, str "com"] : List Str).dropLast.all
        (fun l => 1 ≤ l.length && l.length ≤ 63) &&
        (([label, str "com"] : List Str).getLastD []).length ≤ 63) = false := by
      rw [hdrop, hlast]
      simp only [List.all_cons, List.all_nil, Bool.and_true, Bool.and_eq_false_iff]
      left
      simp only [Bool.and_eq_false_iff, decide_eq_false_iff_not]
      right
      omega
    have hidna : idnaAscii (label ++ '.' :: str "com") = none := by
      unfold idnaAscii
      rw [if_pos hascii, if_neg hdomne]
      simp only [hsd]
      rw [if_neg (by rw [hcondf]; simp)]
    rw [heq]
    simp only [ is_valid_syntax, hsplit]
    rw [if_neg (by decide), if_neg (by decide), if_neg (by decide)]
    simp only [hidna]

/-- Witness for the amended C6 at concrete labels of length 63 and 64. -/
theorem claim_C6_witness :
    is_valid_syntax idnaAscii (str "a@" ++ List.replicate 63 'a' ++ str ".com") =
      (true, none) ∧
    is_valid_syntax idnaAscii (str "a@" ++ List.replicate 64 'a' ++ str ".com") =
      (false, some (str "domain_idna")) :=
  ⟨(claim_C6_amended (List.replicate 63 'a') (by decide) (by decide)).1 (by decide),
   (claim_C6_amended (List.replicate 64 'a') (by decide) (by decide)).2 (by decide)⟩
